import Mathlib

/-!
Verification development for the TermSage interactive shell
(src/command_handler.py, src/config.py, src/ollama_helper.py,
src/command_registry.py), as a shallow embedding in Lean 4.

Python strings are modelled by Lean `String`, Python dicts by
insertion-ordered association lists `List (String × α)` (assignment
replaces in place or appends at the end, exactly like CPython dicts),
JSON documents by the inductive `JValue`, and operating-system /
network effects by explicit oracle records passed to each function.
Fallible Python operations (those that can raise) return `Option`.
-/

namespace TermSage

/-- Python `str.strip()` on the underlying character list. -/
def stripList (l : List Char) : List Char :=
  ((l.dropWhile Char.isWhitespace).reverse.dropWhile Char.isWhitespace).reverse

/-- Python `str.strip()`. -/
def pyStrip (s : String) : String := String.mk (stripList s.data)

/-- Python `str.startswith(pre)`. -/
def pyStartsWith (s pre : String) : Bool := pre.data.isPrefixOf s.data

/-- Python `str.endswith(suf)`. -/
def pyEndsWith (s suf : String) : Bool := suf.data.isSuffixOf s.data

/-- Python `str.lower()` (ASCII, as used for the command names here). -/
def pyLower (s : String) : String := String.mk (s.data.map Char.toLower)

/-- Helper for `splitDots`: accumulates the current segment reversed. -/
def splitDotsAux : List Char → List Char → List String
  | [], cur => [String.mk cur.reverse]
  | c :: cs, cur =>
      if c = '.' then String.mk cur.reverse :: splitDotsAux cs []
      else splitDotsAux cs (c :: cur)

/-- Python `key.split(".")` as used by `Config.get` / `Config.set`. -/
def splitDots (s : String) : List String := splitDotsAux s.data []

/-- Quoting state of the `shlex.split` tokenizer. -/
inductive QuoteMode | normal | single | double

/-- `shlex.split` (POSIX mode) restricted to whitespace separation and
single/double quoting; backslash escapes are not modelled (no claim and
no concrete input in this development uses them). `cur = none` means no
token is in progress, `some t` holds the token so far, reversed. -/
def shlexAux : QuoteMode → Option (List Char) → List Char → List String
  | _, cur, [] =>
      match cur with
      | some t => [String.mk t.reverse]
      | none => []
  | QuoteMode.normal, cur, c :: cs =>
      if c.isWhitespace then
        match cur with
        | some t => String.mk t.reverse :: shlexAux QuoteMode.normal none cs
        | none => shlexAux QuoteMode.normal none cs
      else if c = '\'' then shlexAux QuoteMode.single (some (cur.getD [])) cs
      else if c = '"' then shlexAux QuoteMode.double (some (cur.getD [])) cs
      else shlexAux QuoteMode.normal (some (c :: cur.getD [])) cs
  | QuoteMode.single, cur, c :: cs =>
      if c = '\'' then shlexAux QuoteMode.normal (some (cur.getD [])) cs
      else shlexAux QuoteMode.single (some (c :: cur.getD [])) cs
  | QuoteMode.double, cur, c :: cs =>
      if c = '"' then shlexAux QuoteMode.normal (some (cur.getD [])) cs
      else shlexAux QuoteMode.double (some (c :: cur.getD [])) cs

/-- `shlex.split(command)` as called by `CommandHandler._handle_cd`. -/
def shlexSplit (s : String) : List String := shlexAux QuoteMode.normal none s.data

/-- Python dict lookup `d[k]` / `k in d` on an insertion-ordered
association list. -/
def lookupKey {α : Type} : List (String × α) → String → Option α
  | [], _ => none
  | (k, v) :: rest, key => if k = key then some v else lookupKey rest key

/-- Python dict assignment `d[k] = v`: replaces in place when the key is
present (keeping its insertion position), otherwise appends at the end. -/
def setKey {α : Type} : List (String × α) → String → α → List (String × α)
  | [], key, v => [(key, v)]
  | (k, w) :: rest, key, v =>
      if k = key then (k, v) :: rest else (k, w) :: setKey rest key v

/-- JSON values: the contents of the configuration file and of the
compiled-in defaults (`c_DEFAULT_CONFIG` in src/config.py). -/
inductive JValue where
  | null
  | bool (b : Bool)
  | num (n : Int)
  | str (s : String)
  | arr (elems : List JValue)
  | obj (fields : List (String × JValue))

/-- `c_DEFAULT_CONFIG` from src/config.py. -/
def default_config : List (String × JValue) :=
  [("terminal", JValue.obj
      [("history_size", JValue.num 1000),
       ("prompt_style", JValue.str "simple"),
       ("start_with_sudo", JValue.bool false)]),
   ("ai", JValue.obj
      [("model", JValue.str "llama2"),
       ("enabled", JValue.bool true),
       ("help_on_error", JValue.bool true),
       ("base_url", JValue.str "http://localhost:11434")])]

/-- `Config._merge_configs(default, user)` from src/config.py: starts from
a copy of `default` and folds the `user` items in; when both sides hold a
dict under the same key it recurses, otherwise the user value wins. -/
def Config.merge_configs : List (String × JValue) → List (String × JValue) → List (String × JValue)
  | d, [] => d
  | d, (k, JValue.obj uf) :: rest =>
      (match lookupKey d k with
       | some (JValue.obj df) =>
           Config.merge_configs (setKey d k (JValue.obj (Config.merge_configs df uf))) rest
       | _ => Config.merge_configs (setKey d k (JValue.obj uf)) rest)
  | d, (k, v) :: rest => Config.merge_configs (setKey d k v) rest
termination_by _ u => sizeOf u

/-- One `user` item of `Config._merge_configs`, factored out for proofs. -/
def Config.merge_one (d : List (String × JValue)) (k : String) (v : JValue) :
    List (String × JValue) :=
  match v, lookupKey d k with
  | JValue.obj uf, some (JValue.obj df) => setKey d k (JValue.obj (Config.merge_configs df uf))
  | _, _ => setKey d k v

/-- The key-descending loop of `Config.get`: starting from `value`, for
each path segment descend when the current value is a dict containing the
segment, otherwise return the `default` (modelled as `none`). -/
def Config.get_path : List String → JValue → Option JValue
  | [], v => some v
  | k :: ks, JValue.obj fs =>
      (match lookupKey fs k with
       | some v => Config.get_path ks v
       | none => none)
  | _ :: _, _ => none

/-- `Config.get(key)` (default `None`) from src/config.py. -/
def Config.get (fs : List (String × JValue)) (key : String) : Option JValue :=
  Config.get_path (splitDots key) (JValue.obj fs)

/-- The navigation loop of `Config.set`: walks `keys[:-1]`, auto-creating
`{}` for missing segments, and assigns at the last segment. Descending
into (or assigning on) a non-dict raises `TypeError` in Python, modelled
as `none`; on the raising runs no mutation has happened yet, because the
code only starts creating fresh dicts after the first missing key, so
returning the unchanged/absent result is faithful. -/
def Config.set_path : List String → List (String × JValue) → JValue → Option (List (String × JValue))
  | [], _, _ => none
  | [k], fs, v => some (setKey fs k v)
  | k :: k2 :: rest, fs, v =>
      match lookupKey fs k with
      | none =>
          (Config.set_path (k2 :: rest) [] v).map (fun inner => setKey fs k (JValue.obj inner))
      | some (JValue.obj inner) =>
          (Config.set_path (k2 :: rest) inner v).map (fun inner2 => setKey fs k (JValue.obj inner2))
      | some _ => none

/-- `Config.set(key, value)` from src/config.py; `none` models the raised
`TypeError` when an existing intermediate value is not a dict. -/
def Config.set (fs : List (String × JValue)) (key : String) (v : JValue) :
    Option (List (String × JValue)) :=
  Config.set_path (splitDots key) fs v

/-- Number of bindings of a key in an association list. -/
def keyCount : List (String × JValue) → String → Nat
  | [], _ => 0
  | (k1, _) :: rest, k => (if k1 = k then 1 else 0) + keyCount rest k

/-- Along a dotted path, the condition on a user document under which the
merge cannot drop the path: at each level the user object has at most one
binding for the path segment (JSON objects parsed into Python dicts always
do) and, when the user binds a strict ancestor of the path, it binds it to
an object. -/
def user_ok : List String → List (String × JValue) → Bool
  | [], _ => true
  | k :: ks, uf =>
      match lookupKey uf k with
      | none => true
      | some (JValue.obj uf2) => decide (keyCount uf k ≤ 1) && user_ok ks uf2
      | some _ => decide (keyCount uf k ≤ 1) && ks.isEmpty

/- ## Shell Command Executor (src/command_handler.py) -/

/-- `CommandResult`: stdout text, stderr text, integer exit code. -/
structure CmdResult where
  stdout : String
  stderr : String
  exitCode : Int
deriving DecidableEq

/-- The mutable state of `CommandHandler` together with the process-wide
working directory that `os.chdir` mutates. -/
structure HandlerState where
  cwd : String
  last_exit_code : Int
deriving DecidableEq

/-- Operating-system oracles used by `CommandHandler`: the user's home
directory, the set of existing directories, the existing directories on
which `os.chdir` raises `PermissionError`, the outcome of
`os.path.expandvars`, and the outcome of `subprocess.run` (`Except.error`
models the raised exception with its text). -/
structure OSWorld where
  home : String
  dirs : List String
  denied : List String
  envExpand : String → String
  run : String → Except String (String × String × Int)

/-- Which branch of `CommandHandler.execute` handled the input. -/
inductive ExecBranch | emptyInput | cdPath | shellPath
deriving DecidableEq

/-- `os.path.expanduser`: `~` and `~/...` expand to the home directory
(the `~user` form is not modelled; no claim uses it). -/
def pyExpanduser (home path : String) : String :=
  if path = "~" then home
  else if pyStartsWith path "~/" then home ++ String.mk (path.data.drop 1)
  else path

/-- The path `CommandHandler._handle_cd` hands to `os.chdir`: tokenize
the command with `shlex.split`, take the second token (defaulting to the
home directory when there is none), expand `~`, then expand environment
variables. -/
def cdTarget (w : OSWorld) (command : String) : String :=
  w.envExpand (pyExpanduser w.home
    (match shlexSplit command with
     | _ :: p :: _ => p
     | _ => pyExpanduser w.home "~"))

/-- `CommandHandler._handle_cd` proper: attempt `os.chdir` on the
resolved target. The three failure branches print and return a stderr
message with exit code 1 and leave the working directory unchanged.
`os.chdir` is modelled on path strings: it succeeds exactly on `w.dirs`,
raising `PermissionError` on members of `w.denied` and
`FileNotFoundError` otherwise. -/
def CommandHandler.handle_cd (w : OSWorld) (st : HandlerState) (command : String) :
    CmdResult × HandlerState :=
  if cdTarget w command ∈ w.dirs then
    if cdTarget w command ∈ w.denied then
      (⟨"", "cd: permission denied: " ++ cdTarget w command, 1⟩, ⟨st.cwd, 1⟩)
    else
      (⟨"", "", 0⟩, ⟨cdTarget w command, 0⟩)
  else
    (⟨"", "cd: no such file or directory: " ++ cdTarget w command, 1⟩, ⟨st.cwd, 1⟩)

/-- `CommandHandler.execute`: empty/whitespace-only input returns a fresh
zero `CommandResult` (without touching `last_exit_code`); `cd ...` and
(stripped) `cd` are intercepted; everything else goes to the host shell
via `subprocess.run`, echoing and returning its streams and exit status.
The third component records which branch ran. -/
def CommandHandler.execute (w : OSWorld) (st : HandlerState) (command : String) :
    CmdResult × HandlerState × ExecBranch :=
  if pyStrip command = "" then (⟨"", "", 0⟩, st, ExecBranch.emptyInput)
  else if pyStartsWith command "cd " then
    ((CommandHandler.handle_cd w st command).1,
     (CommandHandler.handle_cd w st command).2, ExecBranch.cdPath)
  else if pyStrip command = "cd" then
    ((CommandHandler.handle_cd w st "cd ~").1,
     (CommandHandler.handle_cd w st "cd ~").2, ExecBranch.cdPath)
  else
    match w.run command with
    | Except.ok (out, err, code) => (⟨out, err, code⟩, ⟨st.cwd, code⟩, ExecBranch.shellPath)
    | Except.error e =>
        (⟨"", "Command execution failed: " ++ e, 1⟩, ⟨st.cwd, 1⟩, ExecBranch.shellPath)

/-- `CommandHandler.get_last_exit_code`. -/
def CommandHandler.get_last_exit_code (st : HandlerState) : Int := st.last_exit_code

/- ## Inference Client (src/ollama_helper.py) -/

/-- Outcome of the HTTP probe issued by `_make_request("tags")`:
either some exception before a response is available, or a response with
the given status code (on which `raise_for_status` may then raise). -/
inductive ProbeOutcome
  | exn
  | status (code : Nat)
deriving DecidableEq

/-- `OllamaHelper.is_available`: a bare `except:` maps every failure to
`False`; `raise_for_status` raises exactly for status codes 400–599. -/
def OllamaHelper.is_available : ProbeOutcome → Bool
  | ProbeOutcome.exn => false
  | ProbeOutcome.status c => if 400 ≤ c ∧ c < 600 then false else true

/-- Outcome of the `POST /api/generate` call in `get_help`, abstracting
the server: the `response` field of the JSON body on success, or one of
the exception classes distinguished by the handlers. -/
inductive GenOutcome
  | ok (response : String)
  | timeout
  | requestError
  | otherError (msg : String)
deriving DecidableEq

/-- World for `get_help`: availability-probe outcome, generate-call
outcome, and `os.getcwd()`. -/
structure AIWorld where
  probe : ProbeOutcome
  gen : GenOutcome
  cwd : String

/-- Result of one `get_help` call: returned text, help cache afterwards,
and the network requests issued (availability probes and generate calls). -/
structure HelpOut where
  text : String
  cache : List (String × String)
  probes : Nat
  gens : Nat
deriving DecidableEq

/-- The cache key `f"help_{command}_{os.getcwd()}"`. -/
def helpKey (command cwd : String) : String := "help_" ++ command ++ "_" ++ cwd

/-- `if len(self._help_cache) > 20: self._help_cache.pop(next(iter(self._help_cache)))`:
drop the first-inserted entry when the bound is exceeded. -/
def evictIfOver (c : List (String × String)) : List (String × String) :=
  if 20 < c.length then c.tail else c

/-- `OllamaHelper.get_help(command)`: empty command short-circuits; then an
availability probe (one network request) is issued; only after it does the
cache lookup happen; on a miss a generate request is issued, and a
non-empty response is formatted, cached and bounded. The prompt text
(context detection) does not influence the modelled outcomes and is
abstracted into the `gen` oracle. -/
def OllamaHelper.get_help (w : AIWorld) (cache : List (String × String)) (command : String) :
    HelpOut :=
  if pyStrip command = "" then
    ⟨"Please specify a command to get help for.", cache, 0, 0⟩
  else if OllamaHelper.is_available w.probe then
    match lookupKey cache (helpKey command w.cwd) with
    | some v => ⟨v, cache, 1, 0⟩
    | none =>
        match w.gen with
        | GenOutcome.ok resp =>
            if pyStrip resp = "" then ⟨"❌ No response from AI model", cache, 1, 1⟩
            else
              ⟨"💡 " ++ pyStrip resp,
               evictIfOver (setKey cache (helpKey command w.cwd) ("💡 " ++ pyStrip resp)), 1, 1⟩
        | GenOutcome.timeout => ⟨"⏱️ Response timeout. Try: man " ++ command, cache, 1, 1⟩
        | GenOutcome.requestError => ⟨"❌ Connection error. Try: man " ++ command, cache, 1, 1⟩
        | GenOutcome.otherError e => ⟨"❌ Error getting help: " ++ e, cache, 1, 1⟩
  else
    ⟨"❌ Ollama not available. Make sure it's running:\\n   ollama serve", cache, 1, 0⟩

/-- The help cache produced by a sequence of `get_help` calls starting
from the initial state (no `_help_cache` attribute, i.e. empty). -/
def runHelpSeq (w : AIWorld) (cmds : List String) : List (String × String) :=
  cmds.foldl (fun cache c => (OllamaHelper.get_help w cache c).cache) []

/-- World for `switch_model`: availability-probe outcome and the result of
`GET /api/tags` (the catalog of installed model names, or the text of the
raised `RequestException`). -/
structure SwitchWorld where
  probe : ProbeOutcome
  tags : Except String (List String)

/-- State touched by `switch_model`: the in-memory `current_model`, the
configuration settings (persisted by `Config.save`, whose `IOError` is
caught internally), and the lines printed so far. -/
structure OllamaState where
  current_model : String
  settings : List (String × JValue)
  out : List String

/-- `OllamaHelper.switch_model(model_name)`: availability check, catalog
re-fetch, membership check with the catalog printed on rejection; on
membership the in-memory model is assigned first and
`Config.set_ollama_model` then persists through `Config.set` — if that
raises (existing non-dict intermediate), the generic handler prints and
returns `False` with the in-memory model already changed. -/
def OllamaHelper.switch_model (w : SwitchWorld) (st : OllamaState) (name : String) :
    Bool × OllamaState :=
  if OllamaHelper.is_available w.probe then
    match w.tags with
    | Except.error e =>
        (false, {st with out := st.out ++ ["❌ Error connecting to Ollama: " ++ e]})
    | Except.ok models =>
        if name ∈ models then
          match Config.set st.settings "ai.model" (JValue.str name) with
          | some s2 =>
              (true, ⟨name, s2,
                st.out ++ ["Model set to: " ++ name, "✓ Switched to model: " ++ name]⟩)
          | none =>
              (false, ⟨name, st.settings,
                st.out ++ ["❌ Error switching model: TypeError"]⟩)
        else
          (false, {st with out := st.out ++
            (["❌ Model '" ++ name ++ "' not found.", "Available models:"]
              ++ models.map (fun m => "  - " ++ m)
              ++ ["\\nInstall with: ollama pull " ++ name])})
  else
    (false, {st with out := st.out ++ ["❌ Error: Cannot connect to Ollama"]})

/- ## Command Router (src/command_registry.py) -/

/-- The keys of `CommandRegistry.commands` (exact-match table). -/
def CommandRegistry.commands : List String :=
  ["/exit", "exit", "help", "/tutorial", "/setup", "/chat", "clear", "/models", "/config"]

/-- The keys of `CommandRegistry.pattern_commands`. -/
def CommandRegistry.patterns : List String := ["/model "]

/-- Routing decision of `CommandRegistry.execute`: which handler family
receives the input (`unhandled` models the `None` return). -/
inductive Dispatch
  | exact (name : String)
  | pattern (p : String)
  | helpReq
  | unhandled
deriving DecidableEq

/-- `CommandRegistry.execute(command)`: lowercased exact match first, then
prefix patterns on the raw input, then the trailing-`?` convention, else
unhandled. -/
def CommandRegistry.execute (command : String) : Dispatch :=
  if pyLower command ∈ CommandRegistry.commands then Dispatch.exact (pyLower command)
  else
    match CommandRegistry.patterns.find? (fun p => pyStartsWith command p) with
    | some p => Dispatch.pattern p
    | none => if pyEndsWith command "?" then Dispatch.helpReq else Dispatch.unhandled

/- ## General helper lemmas -/

theorem mem_dropWhile_of_mem {p : Char → Bool} {c : Char} :
    ∀ {l : List Char}, c ∈ l → p c = false → c ∈ l.dropWhile p := by
  intro l hm hp
  induction l with
  | nil => cases hm
  | cons a t ih =>
    by_cases ha : p a
    · rw [List.dropWhile_cons_of_pos ha]
      rcases List.mem_cons.mp hm with h | h
      · subst h; rw [hp] at ha; cases ha
      · exact ih h
    · rw [List.dropWhile_cons_of_neg ha]; exact hm

theorem dropWhile_ne_nil_of_mem {p : Char → Bool} {c : Char} :
    ∀ {l : List Char}, c ∈ l → p c = false → l.dropWhile p ≠ [] := by
  intro l hm hp
  intro hnil
  have := mem_dropWhile_of_mem hm hp
  rw [hnil] at this
  cases this

theorem stripList_ne_nil {c : Char} {l : List Char} (hm : c ∈ l)
    (hp : c.isWhitespace = false) : stripList l ≠ [] := by
  unfold stripList
  intro h
  have h2 : (l.dropWhile Char.isWhitespace).reverse.dropWhile Char.isWhitespace = [] := by
    have := congrArg List.reverse h
    simpa using this
  have hc1 : c ∈ l.dropWhile Char.isWhitespace := mem_dropWhile_of_mem hm hp
  have hc2 : c ∈ (l.dropWhile Char.isWhitespace).reverse := List.mem_reverse.mpr hc1
  exact dropWhile_ne_nil_of_mem hc2 hp h2

theorem pyStrip_ne_empty {c : Char} {s : String} (hm : c ∈ s.data)
    (hp : c.isWhitespace = false) : pyStrip s ≠ "" := by
  unfold pyStrip
  intro h
  have : stripList s.data = [] := by
    have := congrArg String.data h
    simpa using this
  exact stripList_ne_nil hm hp this

theorem isPrefixOf_exists {l m : List Char} (h : l.isPrefixOf m = true) :
    ∃ t, m = l ++ t := by
  have h2 : l <+: m := by simpa using h
  obtain ⟨t, ht⟩ := h2
  exact ⟨t, ht.symm⟩

theorem isPrefixOf_append (l t : List Char) : l.isPrefixOf (l ++ t) = true := by
  induction l with
  | nil => simp [List.isPrefixOf]
  | cons a as ih => simp [List.isPrefixOf, ih]

theorem pyStartsWith_append (a b : String) : pyStartsWith (a ++ b) a = true := by
  unfold pyStartsWith
  rw [show (a ++ b).data = a.data ++ b.data from String.data_append a b]
  exact isPrefixOf_append _ _

theorem pyStrip_ne_empty_of_cd {s : String} (h : pyStartsWith s "cd " = true) :
    pyStrip s ≠ "" := by
  unfold pyStartsWith at h
  obtain ⟨t, ht⟩ := isPrefixOf_exists h
  have hc : 'c' ∈ s.data := by rw [ht]; simp
  exact pyStrip_ne_empty hc (by decide)

/- ## Association-list (dict) lemmas -/

theorem lookup_setKey_self {α : Type} (l : List (String × α)) (k : String) (v : α) :
    lookupKey (setKey l k v) k = some v := by
  induction l with
  | nil => simp [setKey, lookupKey]
  | cons p rest ih =>
    obtain ⟨k1, w⟩ := p
    by_cases h : k1 = k
    · simp [setKey, lookupKey, h]
    · simp [setKey, lookupKey, h, ih]

theorem lookup_setKey_ne {α : Type} (l : List (String × α)) (k k2 : String) (v : α)
    (h : k2 ≠ k) : lookupKey (setKey l k v) k2 = lookupKey l k2 := by
  have hk : k ≠ k2 := fun hh => h hh.symm
  induction l with
  | nil => simp [setKey, lookupKey, hk]
  | cons p rest ih =>
    obtain ⟨k1, w⟩ := p
    by_cases h1 : k1 = k
    · subst h1
      simp [setKey, lookupKey, hk]
    · simp [setKey, lookupKey, h1, ih]

theorem setKey_absent_append {α : Type} {l : List (String × α)} {k : String} (v : α)
    (h : lookupKey l k = none) : setKey l k v = l ++ [(k, v)] := by
  induction l with
  | nil => simp [setKey]
  | cons p rest ih =>
    obtain ⟨k1, w⟩ := p
    simp [lookupKey] at h
    by_cases h1 : k1 = k
    · simp [h1] at h
    · simp [setKey, h1, ih (by simp [h1] at h; exact h)]

theorem lookup_none_forall {α : Type} {l : List (String × α)} {k : String}
    (h : lookupKey l k = none) : ∀ p ∈ l, p.1 ≠ k := by
  induction l with
  | nil => intro p hp; cases hp
  | cons q rest ih =>
    obtain ⟨k1, w⟩ := q
    intro p hp
    simp [lookupKey] at h
    by_cases h1 : k1 = k
    · simp [h1] at h
    · rcases List.mem_cons.mp hp with hh | hh
      · subst hh; exact h1
      · exact ih (by simp [h1] at h; exact h) p hh

theorem lookup_append_keys_ne {α : Type} {l : List (String × α)} {k : String} (v : α)
    (h : ∀ p ∈ l, p.1 ≠ k) : lookupKey (l ++ [(k, v)]) k = some v := by
  induction l with
  | nil => simp [lookupKey]
  | cons q rest ih =>
    obtain ⟨k1, w⟩ := q
    have h1 : k1 ≠ k := h (k1, w) (by simp)
    simp only [List.cons_append, lookupKey, h1, if_neg h1]
    exact ih (fun p hp => h p (List.mem_cons_of_mem _ hp))

theorem setKey_length_le {α : Type} (l : List (String × α)) (k : String) (v : α) :
    (setKey l k v).length ≤ l.length + 1 := by
  induction l with
  | nil => simp [setKey]
  | cons q rest ih =>
    obtain ⟨k1, w⟩ := q
    by_cases h1 : k1 = k
    · simp [setKey, h1]
    · simp only [setKey, if_neg h1, List.length_cons]
      omega

theorem tail_append_of_ne_nil {α : Type} {l : List α} (l2 : List α) (h : l ≠ []) :
    (l ++ l2).tail = l.tail ++ l2 := by
  cases l with
  | nil => cases h rfl
  | cons a t => rfl

/- ## Merge lemmas (Config._merge_configs) -/

theorem merge_step (d : List (String × JValue)) (k : String) (v : JValue)
    (rest : List (String × JValue)) :
    Config.merge_configs d ((k, v) :: rest) =
      Config.merge_configs (Config.merge_one d k v) rest := by
  cases v with
  | obj uf =>
    unfold Config.merge_one
    rcases h : lookupKey d k with _ | w
    · simp [Config.merge_configs, h]
    · cases w <;> simp [Config.merge_configs, h]
  | null => simp [Config.merge_configs, Config.merge_one]
  | bool b => simp [Config.merge_configs, Config.merge_one]
  | num n => simp [Config.merge_configs, Config.merge_one]
  | str s => simp [Config.merge_configs, Config.merge_one]
  | arr xs => simp [Config.merge_configs, Config.merge_one]

theorem merge_one_is_setKey (d : List (String × JValue)) (k : String) (v : JValue) :
    ∃ w, Config.merge_one d k v = setKey d k w := by
  unfold Config.merge_one
  cases v with
  | obj uf =>
    rcases h : lookupKey d k with _ | w
    · exact ⟨_, rfl⟩
    · cases w
      all_goals exact ⟨_, rfl⟩
  | null => exact ⟨_, rfl⟩
  | bool b => exact ⟨_, rfl⟩
  | num n => exact ⟨_, rfl⟩
  | str s => exact ⟨_, rfl⟩
  | arr xs => exact ⟨_, rfl⟩

theorem lookup_merge_one_ne (d : List (String × JValue)) (k k2 : String) (v : JValue)
    (h : k2 ≠ k) : lookupKey (Config.merge_one d k v) k2 = lookupKey d k2 := by
  obtain ⟨w, hw⟩ := merge_one_is_setKey d k v
  rw [hw, lookup_setKey_ne _ _ _ _ h]

theorem lookup_merge_absent (u : List (String × JValue)) :
    ∀ (d : List (String × JValue)) (k : String), lookupKey u k = none →
      lookupKey (Config.merge_configs d u) k = lookupKey d k := by
  induction u with
  | nil => intro d k _; simp [Config.merge_configs]
  | cons q rest ih =>
    obtain ⟨ku, vu⟩ := q
    intro d k hu
    have hk : ku ≠ k := by
      intro hh
      simp [lookupKey, hh] at hu
    have hu2 : lookupKey rest k = none := by
      simpa [lookupKey, hk] using hu
    rw [merge_step, ih _ _ hu2, lookup_merge_one_ne _ _ _ _ (fun hh => hk hh.symm)]

theorem lookup_none_of_keyCount_zero {l : List (String × JValue)} {k : String}
    (h : keyCount l k = 0) : lookupKey l k = none := by
  induction l with
  | nil => rfl
  | cons q rest ih =>
    obtain ⟨k1, w⟩ := q
    rw [keyCount] at h
    by_cases h1 : k1 = k
    · rw [if_pos h1] at h; omega
    · rw [if_neg h1] at h
      simp only [lookupKey, if_neg h1]
      exact ih (by omega)

theorem lookup_rest_none_of_head_count {k : String} {vu : JValue}
    {rest : List (String × JValue)}
    (hcnt : decide (keyCount ((k, vu) :: rest) k ≤ 1) = true) :
    lookupKey rest k = none := by
  rw [decide_eq_true_iff, keyCount, if_pos rfl] at hcnt
  exact lookup_none_of_keyCount_zero (by omega)

theorem user_ok_inv_head {k : String} {ks : List String} {rest : List (String × JValue)}
    {vu : JValue} (h : user_ok (k :: ks) ((k, vu) :: rest) = true) :
    lookupKey rest k = none ∧
      ((∃ uf, vu = JValue.obj uf ∧ user_ok ks uf = true) ∨
       (ks = [] ∧ ∀ uf, vu ≠ JValue.obj uf)) := by
  have hl : lookupKey ((k, vu) :: rest) k = some vu := by simp [lookupKey]
  unfold user_ok at h
  rw [hl] at h
  cases vu
  case obj uf =>
    simp only [Bool.and_eq_true] at h
    obtain ⟨hcnt, hok⟩ := h
    exact ⟨lookup_rest_none_of_head_count hcnt, Or.inl ⟨uf, rfl, hok⟩⟩
  all_goals
    simp only [Bool.and_eq_true] at h
    obtain ⟨hcnt, hks⟩ := h
    refine ⟨lookup_rest_none_of_head_count hcnt,
      Or.inr ⟨?_, fun uf hh => JValue.noConfusion hh⟩⟩
    cases ks with
    | nil => rfl
    | cons a b => simp at hks

theorem user_ok_cons_ne {ku k : String} {vu : JValue} {rest : List (String × JValue)}
    (ks : List String) (hk : ku ≠ k) :
    user_ok (k :: ks) ((ku, vu) :: rest) = user_ok (k :: ks) rest := by
  unfold user_ok
  rw [show lookupKey ((ku, vu) :: rest) k = lookupKey rest k by simp [lookupKey, hk]]
  rcases h : lookupKey rest k with _ | w
  · rfl
  · cases w <;> simp [keyCount, hk]

theorem get_path_cons_obj {k2 : String} {ks2 : List String} {dv : JValue}
    (h : (Config.get_path (k2 :: ks2) dv).isSome = true) :
    ∃ dfs, dv = JValue.obj dfs := by
  cases dv with
  | obj dfs => exact ⟨dfs, rfl⟩
  | null => simp [Config.get_path] at h
  | bool b => simp [Config.get_path] at h
  | num n => simp [Config.get_path] at h
  | str s => simp [Config.get_path] at h
  | arr xs => simp [Config.get_path] at h

theorem merge_keeps_path (path : List String) :
    ∀ (u d : List (String × JValue)), user_ok path u = true →
      (Config.get_path path (JValue.obj d)).isSome = true →
      (Config.get_path path (JValue.obj (Config.merge_configs d u))).isSome = true := by
  induction path with
  | nil => intro u d _ _; simp [Config.get_path]
  | cons k ks ihp =>
    intro u
    induction u with
    | nil =>
      intro d _ hsome
      simpa [Config.merge_configs] using hsome
    | cons q rest ihu =>
      obtain ⟨ku, vu⟩ := q
      intro d hok hsome
      rw [merge_step]
      by_cases hk : ku = k
      · subst hk
        obtain ⟨hrest0, hshape⟩ := user_ok_inv_head hok
        have hpres : lookupKey (Config.merge_configs (Config.merge_one d ku vu) rest) ku
            = lookupKey (Config.merge_one d ku vu) ku :=
          lookup_merge_absent rest _ _ hrest0
        rcases hdk : lookupKey d ku with _ | dv
        · rw [show Config.get_path (ku :: ks) (JValue.obj d) = none by
            simp [Config.get_path, hdk]] at hsome
          cases hsome
        · have hsub : (Config.get_path ks dv).isSome = true := by
            rw [show Config.get_path (ku :: ks) (JValue.obj d)
                  = Config.get_path ks dv by simp [Config.get_path, hdk]] at hsome
            exact hsome
          cases ks with
          | nil =>
            -- the path ends at this segment: any merged value works
            obtain ⟨w, hw⟩ := merge_one_is_setKey d ku vu
            have h2 : lookupKey (Config.merge_configs (Config.merge_one d ku vu) rest) ku
                = some w := by rw [hpres, hw, lookup_setKey_self]
            simp [Config.get_path, h2]
          | cons k2 ks2 =>
            -- a strict descent remains: the default and user values must be objects
            obtain ⟨dfs, hdfs⟩ := get_path_cons_obj hsub
            subst hdfs
            rcases hshape with ⟨uf, huf, hoku⟩ | ⟨hks, _⟩
            · subst huf
              have hmo : Config.merge_one d ku (JValue.obj uf)
                  = setKey d ku (JValue.obj (Config.merge_configs dfs uf)) := by
                unfold Config.merge_one
                rw [hdk]
              have h2 : lookupKey
                  (Config.merge_configs (Config.merge_one d ku (JValue.obj uf)) rest) ku
                  = some (JValue.obj (Config.merge_configs dfs uf)) := by
                rw [hpres, hmo, lookup_setKey_self]
              rw [show Config.get_path (ku :: k2 :: ks2)
                    (JValue.obj (Config.merge_configs
                      (Config.merge_one d ku (JValue.obj uf)) rest))
                  = Config.get_path (k2 :: ks2)
                      (JValue.obj (Config.merge_configs dfs uf)) by
                simp [Config.get_path, h2]]
              exact ihp uf dfs hoku hsub
            · cases hks
      · have hok2 : user_ok (k :: ks) rest = true := by
          rw [user_ok_cons_ne ks hk] at hok
          exact hok
        have hpath : Config.get_path (k :: ks) (JValue.obj (Config.merge_one d ku vu))
            = Config.get_path (k :: ks) (JValue.obj d) := by
          simp only [Config.get_path]
          rw [lookup_merge_one_ne _ _ _ _ (fun hh => hk hh.symm)]
        exact ihu (Config.merge_one d ku vu) hok2 (by rw [hpath]; exact hsome)

theorem set_path_get_path (keys : List String) :
    ∀ (fs fs2 : List (String × JValue)) (v : JValue),
      Config.set_path keys fs v = some fs2 →
      Config.get_path keys (JValue.obj fs2) = some v := by
  induction keys with
  | nil => intro fs fs2 v h; cases h
  | cons k rest ih =>
    intro fs fs2 v h
    cases rest with
    | nil =>
      rw [Config.set_path] at h
      cases h
      simp [Config.get_path, lookup_setKey_self]
    | cons k2 rest2 =>
      rw [Config.set_path] at h
      split at h
      · -- the segment is absent: a fresh dict is created
        rcases hm : Config.set_path (k2 :: rest2) [] v with _ | inner
        · rw [hm] at h; cases h
        · rw [hm] at h
          simp only [Option.map_some'] at h
          cases h
          simp only [Config.get_path, lookup_setKey_self]
          exact ih [] inner v hm
      · -- the segment holds a dict: descend
        rename_i inner _
        rcases hm : Config.set_path (k2 :: rest2) inner v with _ | inner2
        · rw [hm] at h; cases h
        · rw [hm] at h
          simp only [Option.map_some'] at h
          cases h
          simp only [Config.get_path, lookup_setKey_self]
          exact ih inner inner2 v hm
      · -- the segment holds a non-dict: TypeError
        cases h

theorem lookup_insert_evict {cache : List (String × String)} {k : String} (v : String)
    (h : lookupKey cache k = none) :
    lookupKey (evictIfOver (setKey cache k v)) k = some v := by
  have happ : setKey cache k v = cache ++ [(k, v)] := setKey_absent_append v h
  have hkeys : ∀ p ∈ cache, p.1 ≠ k := lookup_none_forall h
  unfold evictIfOver
  by_cases hlen : 20 < (setKey cache k v).length
  · rw [if_pos hlen]
    cases cache with
    | nil =>
      rw [happ] at hlen
      simp at hlen
    | cons q cr =>
      rw [happ, tail_append_of_ne_nil _ (by simp)]
      exact lookup_append_keys_ne v
        (fun p hp => hkeys p (List.mem_of_mem_tail hp))
  · rw [if_neg hlen, happ]
    exact lookup_append_keys_ne v hkeys

theorem evictIfOver_length {cache : List (String × String)}
    (h : cache.length ≤ 21) : (evictIfOver cache).length ≤ 20 := by
  unfold evictIfOver
  by_cases hlen : 20 < cache.length
  · rw [if_pos hlen, List.length_tail]
    omega
  · rw [if_neg hlen]
    omega

theorem get_help_cache_bound (w : AIWorld) (cache : List (String × String)) (c : String)
    (h : cache.length ≤ 20) :
    (OllamaHelper.get_help w cache c).cache.length ≤ 20 := by
  unfold OllamaHelper.get_help
  split
  · exact h
  · split
    · split
      · exact h
      · split
        · split
          · exact h
          · exact evictIfOver_length
              (le_trans (setKey_length_le _ _ _) (by omega))
        · exact h
        · exact h
        · exact h
    · exact h

theorem runHelpSeq_bound (w : AIWorld) (cmds : List String) :
    (runHelpSeq w cmds).length ≤ 20 := by
  unfold runHelpSeq
  have hgen : ∀ (cs : List String) (cache : List (String × String)), cache.length ≤ 20 →
      (cs.foldl (fun cache c => (OllamaHelper.get_help w cache c).cache) cache).length ≤ 20 := by
    intro cs
    induction cs with
    | nil => intro cache h; simpa using h
    | cons c cs2 ih =>
      intro cache h
      simp only [List.foldl_cons]
      exact ih _ (get_help_cache_bound w cache c h)
  exact hgen cmds [] (by simp)

theorem get_help_miss_hit (w : AIWorld) (cache : List (String × String)) (c r : String)
    (hc : pyStrip c ≠ "") (hav : OllamaHelper.is_available w.probe = true)
    (hgen : w.gen = GenOutcome.ok r) (hr : pyStrip r ≠ "")
    (hmiss : lookupKey cache (helpKey c w.cwd) = none) :
    OllamaHelper.get_help w cache c =
      ⟨"💡 " ++ pyStrip r,
       evictIfOver (setKey cache (helpKey c w.cwd) ("💡 " ++ pyStrip r)), 1, 1⟩ ∧
    OllamaHelper.get_help w
        (evictIfOver (setKey cache (helpKey c w.cwd) ("💡 " ++ pyStrip r))) c =
      ⟨"💡 " ++ pyStrip r,
       evictIfOver (setKey cache (helpKey c w.cwd) ("💡 " ++ pyStrip r)), 1, 0⟩ := by
  constructor
  · unfold OllamaHelper.get_help
    rw [if_neg hc, if_pos hav, hmiss, hgen]
    simp only [if_neg hr]
  · unfold OllamaHelper.get_help
    rw [if_neg hc, if_pos hav, lookup_insert_evict _ hmiss]

theorem handle_cd_last_code (w : OSWorld) (st : HandlerState) (c : String) :
    (CommandHandler.handle_cd w st c).2.last_exit_code =
      (CommandHandler.handle_cd w st c).1.exitCode := by
  unfold CommandHandler.handle_cd
  split
  · split
    · rfl
    · rfl
  · rfl

theorem execute_last_code (w : OSWorld) (st : HandlerState) (c : String)
    (hc : pyStrip c ≠ "") :
    (CommandHandler.execute w st c).2.1.last_exit_code =
      (CommandHandler.execute w st c).1.exitCode := by
  unfold CommandHandler.execute
  rw [if_neg hc]
  split
  · exact handle_cd_last_code w st c
  · split
    · exact handle_cd_last_code w st "cd ~"
    · split
      · rfl
      · rfl

/- ## Concrete worlds used by witnesses and counterexamples -/

/-- A concrete operating-system world: home `/home/u`; existing
directories `/home/u`, `/tmp` and `foo`; no permission-denied
directories; environment-variable expansion is the identity (no `$` in
any input used); the host shell succeeds with empty output. -/
def osw : OSWorld :=
  ⟨"/home/u", ["/home/u", "/tmp", "foo"], [], fun s => s, fun _ => Except.ok ("", "", 0)⟩

/-- A concrete inference-backend world: the availability probe returns
HTTP 200, the generate call answers `Use git status`, and the current
working directory is `/repo`. -/
def aiw : AIWorld := ⟨ProbeOutcome.status 200, GenOutcome.ok "Use git status", "/repo"⟩

/-- A concrete switch-model world: probe 200 and catalog
`["llama2", "mistral"]`. -/
def sww : SwitchWorld := ⟨ProbeOutcome.status 200, Except.ok ["llama2", "mistral"]⟩

/-- A full help cache of 20 entries `k0 ↦ v, …, k19 ↦ v`. -/
def cache20 : List (String × String) := (List.range 20).map (fun i => ("k" ++ toString i, "v"))

/-- Settings as loaded from a user configuration file `{"ai": 5}`:
the merge keeps the `terminal` defaults but replaces the whole `ai`
subtree by the scalar. -/
def badSettings : List (String × JValue) :=
  [("terminal", JValue.obj
      [("history_size", JValue.num 1000),
       ("prompt_style", JValue.str "simple"),
       ("start_with_sudo", JValue.bool false)]),
   ("ai", JValue.num 5)]

/-- An `OllamaHelper` state holding `badSettings`. -/
def badState : OllamaState := ⟨"llama2", badSettings, []⟩

/- ## Claim theorems -/

/-- C1 counterexample: with the backend available and responding, two
`get_help("git")` calls in `/repo` issue three network requests in total
(probe + generate, then probe again), not one; the second call issues one
network request (the availability probe), not zero; its result does equal
the first call's. -/
theorem C1_counterexample :
    ((OllamaHelper.get_help aiw [] "git").probes + (OllamaHelper.get_help aiw [] "git").gens)
      + ((OllamaHelper.get_help aiw (OllamaHelper.get_help aiw [] "git").cache "git").probes
        + (OllamaHelper.get_help aiw (OllamaHelper.get_help aiw [] "git").cache "git").gens)
      = 3 ∧
    (OllamaHelper.get_help aiw (OllamaHelper.get_help aiw [] "git").cache "git").probes
      + (OllamaHelper.get_help aiw (OllamaHelper.get_help aiw [] "git").cache "git").gens
      = 1 ∧
    (OllamaHelper.get_help aiw (OllamaHelper.get_help aiw [] "git").cache "git").text
      = (OllamaHelper.get_help aiw [] "git").text :=
  ⟨rfl, rfl, rfl⟩

/-- C1 (amended): for any command with a non-empty strip, with the backend
available and the generate call succeeding with a non-empty response, and
the key (command, cwd) not cached: the first `get_help` issues exactly one
generate request; the second issues none (it finds the cache entry before
any generate request) and only the availability probe, and returns the
first call's result. -/
theorem C1_cached_second_call (w : AIWorld) (cache : List (String × String)) (c r : String)
    (hc : pyStrip c ≠ "") (hav : OllamaHelper.is_available w.probe = true)
    (hgen : w.gen = GenOutcome.ok r) (hr : pyStrip r ≠ "")
    (hmiss : lookupKey cache (helpKey c w.cwd) = none) :
    (OllamaHelper.get_help w cache c).gens = 1 ∧
    (OllamaHelper.get_help w (OllamaHelper.get_help w cache c).cache c).gens = 0 ∧
    (OllamaHelper.get_help w (OllamaHelper.get_help w cache c).cache c).probes = 1 ∧
    (OllamaHelper.get_help w (OllamaHelper.get_help w cache c).cache c).text
      = (OllamaHelper.get_help w cache c).text := by
  obtain ⟨h1, h2⟩ := get_help_miss_hit w cache c r hc hav hgen hr hmiss
  simp [h1, h2]

/-- Witness for C1's amended theorem at the concrete world `aiw`. -/
theorem C1_cached_second_call_witness :
    (OllamaHelper.get_help aiw [] "git").gens = 1 ∧
    (OllamaHelper.get_help aiw (OllamaHelper.get_help aiw [] "git").cache "git").gens = 0 ∧
    (OllamaHelper.get_help aiw (OllamaHelper.get_help aiw [] "git").cache "git").probes = 1 ∧
    (OllamaHelper.get_help aiw (OllamaHelper.get_help aiw [] "git").cache "git").text
      = (OllamaHelper.get_help aiw [] "git").text :=
  C1_cached_second_call aiw [] "git" "Use git status" (by decide) rfl rfl (by decide) rfl

/-- C2 counterexample: the dotted key `terminal.history_size` resolves in
the defaults, but after merging the user document `{"terminal": 5}` over
the defaults it no longer resolves: a user scalar override of a default
subtree deletes the default keys beneath it. -/
theorem C2_counterexample :
    Config.get default_config "terminal.history_size" = some (JValue.num 1000) ∧
    Config.get (Config.merge_configs default_config [("terminal", JValue.num 5)])
      "terminal.history_size" = none := by
  refine ⟨rfl, ?_⟩
  rw [show Config.merge_configs default_config [("terminal", JValue.num 5)]
      = setKey default_config "terminal" (JValue.num 5) by
    simp [Config.merge_configs]]
  rfl

/-- C2 (amended): every dotted key that resolves in the compiled-in
defaults still resolves after merging a user document over them, provided
the user document binds each relevant segment at most once (JSON objects
parsed into Python dicts always do) and does not bind a strict ancestor
of the key's path to a non-mapping value. -/
theorem C2_defaults_preserved (u : List (String × JValue)) (key : String)
    (hok : user_ok (splitDots key) u = true)
    (hdef : (Config.get default_config key).isSome = true) :
    (Config.get (Config.merge_configs default_config u) key).isSome = true :=
  merge_keeps_path (splitDots key) u default_config hok hdef

/-- Witness for C2's amended theorem: a user override of `ai.model` keeps
`ai.model` resolvable after the merge. -/
theorem C2_defaults_preserved_witness :
    (Config.get (Config.merge_configs default_config
        [("ai", JValue.obj [("model", JValue.str "m")])]) "ai.model").isSome = true :=
  C2_defaults_preserved [("ai", JValue.obj [("model", JValue.str "m")])] "ai.model"
    (by decide) (by decide)

/-- C4 counterexample: the dotted key `ai.model.x` is not present in the
default configuration, yet `Config.set` on it does not create it: the
existing non-dict value at `ai.model` makes the navigation raise
`TypeError` (modelled as `none`), so the subsequent `get` cannot return
the value. -/
theorem C4_counterexample :
    Config.set default_config "ai.model.x" (JValue.num 0) = none ∧
    Config.get default_config "ai.model.x" = none :=
  ⟨rfl, rfl⟩

/-- C4 (amended): whenever `Config.set(k, v)` does not raise — that is,
no existing strict ancestor of the dotted path holds a non-mapping
value — the subsequent `Config.get(k)` returns `v`, for arbitrary depth,
auto-creating missing intermediate mapping levels. -/
theorem C4_set_get_roundtrip (fs fs2 : List (String × JValue)) (key : String) (v : JValue)
    (h : Config.set fs key v = some fs2) : Config.get fs2 key = some v :=
  set_path_get_path (splitDots key) fs fs2 v h

/-- Witness for C4's amended theorem: setting `a.b.c` in an empty
configuration auto-creates both intermediate levels and `get` returns the
value. -/
theorem C4_set_get_roundtrip_witness :
    Config.set [] "a.b.c" (JValue.num 7)
      = some [("a", JValue.obj [("b", JValue.obj [("c", JValue.num 7)])])] ∧
    Config.get [("a", JValue.obj [("b", JValue.obj [("c", JValue.num 7)])])] "a.b.c"
      = some (JValue.num 7) :=
  ⟨rfl, C4_set_get_roundtrip [] _ "a.b.c" (JValue.num 7) rfl⟩

/-- C3 counterexample: `p = "foo bar"` does not name an existing directory
(its expansion is itself and is not in the directory list), yet
`execute("cd foo bar")` changes the working directory to `foo` (the first
`shlex` token) and returns exit code 0, because only `parts[1]` is used as
the `chdir` target. -/
theorem C3_counterexample :
    osw.envExpand (pyExpanduser osw.home "foo bar") = "foo bar" ∧
    "foo bar" ∉ osw.dirs ∧
    (CommandHandler.execute osw ⟨"/tmp", 0⟩ "cd foo bar").2.1.cwd = "foo" ∧
    (CommandHandler.execute osw ⟨"/tmp", 0⟩ "cd foo bar").1.exitCode = 0 :=
  ⟨rfl, by decide, rfl, rfl⟩

/-- C3 (amended): for every path `p` that `shlex` tokenizes as a single
word and whose `~`/environment expansion does not name an existing
directory, `execute("cd " + p)` leaves the working directory unchanged,
returns exit code 1, and reports a human-readable message on the stderr
channel. -/
theorem C3_cd_missing_dir (w : OSWorld) (st : HandlerState) (p : String)
    (htok : shlexSplit ("cd " ++ p) = ["cd", p])
    (hne : w.envExpand (pyExpanduser w.home p) ∉ w.dirs) :
    (CommandHandler.execute w st ("cd " ++ p)).1.exitCode = 1 ∧
    (CommandHandler.execute w st ("cd " ++ p)).2.1.cwd = st.cwd ∧
    (CommandHandler.execute w st ("cd " ++ p)).1.stderr
      = "cd: no such file or directory: " ++ w.envExpand (pyExpanduser w.home p) := by
  have hsw : pyStartsWith ("cd " ++ p) "cd " = true := pyStartsWith_append "cd " p
  have hcd : cdTarget w ("cd " ++ p) = w.envExpand (pyExpanduser w.home p) := by
    unfold cdTarget
    rw [htok]
  have hexec : CommandHandler.execute w st ("cd " ++ p)
      = ((CommandHandler.handle_cd w st ("cd " ++ p)).1,
         (CommandHandler.handle_cd w st ("cd " ++ p)).2, ExecBranch.cdPath) := by
    unfold CommandHandler.execute
    rw [if_neg (pyStrip_ne_empty_of_cd hsw), if_pos hsw]
  have hcdres : CommandHandler.handle_cd w st ("cd " ++ p)
      = (⟨"", "cd: no such file or directory: " ++ w.envExpand (pyExpanduser w.home p), 1⟩,
         ⟨st.cwd, 1⟩) := by
    unfold CommandHandler.handle_cd
    rw [hcd, if_neg hne]
  rw [hexec, hcdres]
  exact ⟨rfl, rfl, rfl⟩

/-- Witness for C3's amended theorem: `cd /nope` from `/tmp`. -/
theorem C3_cd_missing_dir_witness :
    (CommandHandler.execute osw ⟨"/tmp", 0⟩ ("cd " ++ "/nope")).1.exitCode = 1 ∧
    (CommandHandler.execute osw ⟨"/tmp", 0⟩ ("cd " ++ "/nope")).2.1.cwd = "/tmp" ∧
    (CommandHandler.execute osw ⟨"/tmp", 0⟩ ("cd " ++ "/nope")).1.stderr
      = "cd: no such file or directory: " ++ osw.envExpand (pyExpanduser osw.home "/nope") :=
  C3_cd_missing_dir osw ⟨"/tmp", 0⟩ "/nope" rfl (by decide)

/-- C5: (1) starting from the empty cache, after any sequence of
`get_help` calls the help cache holds at most 20 entries; (2) inserting a
new entry into a cache at capacity 20 evicts exactly the first-inserted
entry: the new cache is the old one minus its head, with the new entry
appended (FIFO by insertion order; lookups do not reorder). -/
theorem C5_cache_bound_fifo :
    (∀ (w : AIWorld) (cmds : List String), (runHelpSeq w cmds).length ≤ 20) ∧
    (∀ (w : AIWorld) (cache : List (String × String)) (c r : String),
      cache.length = 20 → pyStrip c ≠ "" →
      OllamaHelper.is_available w.probe = true →
      w.gen = GenOutcome.ok r → pyStrip r ≠ "" →
      lookupKey cache (helpKey c w.cwd) = none →
      (OllamaHelper.get_help w cache c).cache
        = cache.tail ++ [(helpKey c w.cwd, "💡 " ++ pyStrip r)]) := by
  constructor
  · exact runHelpSeq_bound
  · intro w cache c r hlen hc hav hgen hr hmiss
    obtain ⟨h1, _⟩ := get_help_miss_hit w cache c r hc hav hgen hr hmiss
    rw [h1]
    show evictIfOver (setKey cache (helpKey c w.cwd) ("💡 " ++ pyStrip r)) = _
    rw [setKey_absent_append _ hmiss]
    unfold evictIfOver
    rw [if_pos (by simp [List.length_append, hlen])]
    rw [tail_append_of_ne_nil _ (by intro hnil; rw [hnil] at hlen; simp at hlen)]

/-- Witness for C5: a two-call sequence stays within the bound, and
inserting into the concrete full cache `cache20` drops `k0` and appends
the new entry at the back. -/
theorem C5_cache_bound_fifo_witness :
    (runHelpSeq aiw ["git", "ls"]).length ≤ 20 ∧
    (OllamaHelper.get_help aiw cache20 "zz").cache
      = cache20.tail ++ [(helpKey "zz" aiw.cwd, "💡 " ++ pyStrip "Use git status")] :=
  ⟨C5_cache_bound_fifo.1 aiw ["git", "ls"],
   C5_cache_bound_fifo.2 aiw cache20 "zz" "Use git status" (by decide) (by decide)
     rfl rfl (by decide) (by decide)⟩

/-- C6 counterexample: with a reachable backend whose catalog contains
`mistral`, but settings in which `ai` holds a scalar (reachable by loading
the user file `{"ai": 5}`, first conjunct), `switch_model("mistral")`
assigns the in-memory current model before persisting; persisting raises,
so the call returns `false` with the in-memory model already changed and
the persisted configuration unchanged — a partially applied switch. -/
theorem C6_counterexample :
    Config.merge_configs default_config [("ai", JValue.num 5)] = badSettings ∧
    (OllamaHelper.switch_model sww badState "mistral").1 = false ∧
    badState.current_model = "llama2" ∧
    (OllamaHelper.switch_model sww badState "mistral").2.current_model = "mistral" ∧
    (OllamaHelper.switch_model sww badState "mistral").2.settings = badState.settings := by
  refine ⟨?_, rfl, rfl, rfl, rfl⟩
  simp [Config.merge_configs, default_config, badSettings, setKey, lookupKey]

/-- C6 (amended): with the backend reachable and the catalog fetched:
an unknown name is rejected with `false`, both the in-memory model and
the settings unchanged, and every catalog entry printed as a suggestion;
a known name whose persist succeeds updates the in-memory model and the
settings together; a known name whose persist raises returns `false`
with the in-memory model already updated and the settings unchanged
(the switch can be partially applied in exactly this failure mode). -/
theorem C6_switch_model (w : SwitchWorld) (st : OllamaState) (name : String)
    (models : List String) (hav : OllamaHelper.is_available w.probe = true)
    (htags : w.tags = Except.ok models) :
    (name ∉ models →
      (OllamaHelper.switch_model w st name).1 = false ∧
      (OllamaHelper.switch_model w st name).2.current_model = st.current_model ∧
      (OllamaHelper.switch_model w st name).2.settings = st.settings ∧
      ∀ m ∈ models, ("  - " ++ m) ∈ (OllamaHelper.switch_model w st name).2.out) ∧
    (name ∈ models → ∀ s2, Config.set st.settings "ai.model" (JValue.str name) = some s2 →
      OllamaHelper.switch_model w st name
        = (true, ⟨name, s2,
            st.out ++ ["Model set to: " ++ name, "✓ Switched to model: " ++ name]⟩)) ∧
    (name ∈ models → Config.set st.settings "ai.model" (JValue.str name) = none →
      (OllamaHelper.switch_model w st name).1 = false ∧
      (OllamaHelper.switch_model w st name).2.current_model = name ∧
      (OllamaHelper.switch_model w st name).2.settings = st.settings) := by
  refine ⟨?_, ?_, ?_⟩
  · intro hmem
    have hres : OllamaHelper.switch_model w st name
        = (false, {st with out := st.out ++
            (["❌ Model '" ++ name ++ "' not found.", "Available models:"]
              ++ models.map (fun m => "  - " ++ m)
              ++ ["\\nInstall with: ollama pull " ++ name])}) := by
      unfold OllamaHelper.switch_model
      rw [if_pos hav, htags]
      simp only [if_neg hmem]
    rw [hres]
    refine ⟨rfl, rfl, rfl, ?_⟩
    intro m hm
    refine List.mem_append.mpr (Or.inr ?_)
    refine List.mem_append.mpr (Or.inl ?_)
    refine List.mem_append.mpr (Or.inr ?_)
    exact List.mem_map.mpr ⟨m, hm, rfl⟩
  · intro hmem s2 hset
    unfold OllamaHelper.switch_model
    rw [if_pos hav, htags]
    simp only [if_pos hmem, hset]
  · intro hmem hset
    have hres : OllamaHelper.switch_model w st name
        = (false, ⟨name, st.settings, st.out ++ ["❌ Error switching model: TypeError"]⟩) := by
      unfold OllamaHelper.switch_model
      rw [if_pos hav, htags]
      simp only [if_pos hmem, hset]
    rw [hres]
    exact ⟨rfl, rfl, rfl⟩

/-- Witness for C6's amended theorem: the spec's end-to-end example,
`/model gpt-mystery` against the catalog `["llama2", "mistral"]`: the
model and settings stay unchanged and both catalog entries are printed. -/
theorem C6_switch_model_witness :
    (OllamaHelper.switch_model sww ⟨"llama2", default_config, []⟩ "gpt-mystery").1 = false ∧
    (OllamaHelper.switch_model sww ⟨"llama2", default_config, []⟩ "gpt-mystery").2.current_model
      = "llama2" ∧
    (OllamaHelper.switch_model sww ⟨"llama2", default_config, []⟩ "gpt-mystery").2.settings
      = default_config ∧
    ("  - llama2") ∈ (OllamaHelper.switch_model sww ⟨"llama2", default_config, []⟩
        "gpt-mystery").2.out ∧
    ("  - mistral") ∈ (OllamaHelper.switch_model sww ⟨"llama2", default_config, []⟩
        "gpt-mystery").2.out := by
  have h := (C6_switch_model sww ⟨"llama2", default_config, []⟩ "gpt-mystery"
    ["llama2", "mistral"] rfl rfl).1 (by decide)
  exact ⟨h.1, h.2.1, h.2.2.1, h.2.2.2 "llama2" (by decide), h.2.2.2 "mistral" (by decide)⟩

/-- C7: the Router resolves dispatch in the fixed priority order:
(1) exact case-insensitive match against the registered command names —
in particular an input that exactly matches a registered name is
dispatched on the exact path even when it ends in `?`; (2) prefix match
against the parameterized prefixes; (3) trailing-`?` help request;
(4) otherwise unhandled (`None`). -/
theorem C7_dispatch_priority (c : String) :
    (pyLower c ∈ CommandRegistry.commands →
      CommandRegistry.execute c = Dispatch.exact (pyLower c)) ∧
    (pyLower c ∉ CommandRegistry.commands → pyStartsWith c "/model " = true →
      CommandRegistry.execute c = Dispatch.pattern "/model ") ∧
    (pyLower c ∉ CommandRegistry.commands → pyStartsWith c "/model " = false →
      pyEndsWith c "?" = true → CommandRegistry.execute c = Dispatch.helpReq) ∧
    (pyLower c ∉ CommandRegistry.commands → pyStartsWith c "/model " = false →
      pyEndsWith c "?" = false → CommandRegistry.execute c = Dispatch.unhandled) := by
  refine ⟨?_, ?_, ?_, ?_⟩
  · intro h
    unfold CommandRegistry.execute
    rw [if_pos h]
  · intro h hsw
    unfold CommandRegistry.execute
    rw [if_neg h]
    simp [CommandRegistry.patterns, List.find?, hsw]
  · intro h hsw hq
    unfold CommandRegistry.execute
    rw [if_neg h]
    simp [CommandRegistry.patterns, List.find?, hsw, hq]
  · intro h hsw hq
    unfold CommandRegistry.execute
    rw [if_neg h]
    simp [CommandRegistry.patterns, List.find?, hsw, hq]

/-- Witness for C7 at one concrete input per dispatch path (`EXIT` also
checks case-insensitivity). -/
theorem C7_dispatch_priority_witness :
    CommandRegistry.execute "EXIT" = Dispatch.exact "exit" ∧
    CommandRegistry.execute "/model llama2" = Dispatch.pattern "/model " ∧
    CommandRegistry.execute "git?" = Dispatch.helpReq ∧
    CommandRegistry.execute "ls -la" = Dispatch.unhandled :=
  ⟨(C7_dispatch_priority "EXIT").1 (by decide),
   (C7_dispatch_priority "/model llama2").2.1 (by decide) (by decide),
   (C7_dispatch_priority "git?").2.2.1 (by decide) (by decide) (by decide),
   (C7_dispatch_priority "ls -la").2.2.2 (by decide) (by decide) (by decide)⟩

/-- C8 counterexample: after `cd /nope` the stored exit code is 1; the
next call `execute("")` returns a result with exit code 0, yet
`get_last_exit_code` still returns 1 — the empty-input no-op does not
update the stored exit code, contradicting the claim for empty input. -/
theorem C8_counterexample :
    (CommandHandler.execute osw ⟨"/tmp", 0⟩ "cd /nope").2.1.last_exit_code = 1 ∧
    (CommandHandler.execute osw
      (CommandHandler.execute osw ⟨"/tmp", 0⟩ "cd /nope").2.1 "").1.exitCode = 0 ∧
    CommandHandler.get_last_exit_code
      (CommandHandler.execute osw
        (CommandHandler.execute osw ⟨"/tmp", 0⟩ "cd /nope").2.1 "").2.1 = 1 :=
  ⟨rfl, rfl, rfl⟩

/-- C8 (amended): for every input whose strip is non-empty,
`get_last_exit_code` after `execute(c)` equals the returned exit code;
for empty/whitespace-only input the call returns exit code 0 as a no-op
but leaves the handler state — including the stored last exit code —
unchanged. -/
theorem C8_last_exit_code (w : OSWorld) (st : HandlerState) (c : String) :
    (pyStrip c ≠ "" →
      CommandHandler.get_last_exit_code (CommandHandler.execute w st c).2.1
        = (CommandHandler.execute w st c).1.exitCode) ∧
    (pyStrip c = "" →
      (CommandHandler.execute w st c).1.exitCode = 0 ∧
      (CommandHandler.execute w st c).2.1 = st) := by
  constructor
  · intro hc
    exact execute_last_code w st c hc
  · intro hc
    unfold CommandHandler.execute
    rw [if_pos hc]
    exact ⟨rfl, rfl⟩

/-- Witness for C8's amended theorem: a failing `cd` and a whitespace-only
input. -/
theorem C8_last_exit_code_witness :
    (CommandHandler.get_last_exit_code
        (CommandHandler.execute osw ⟨"/tmp", 0⟩ "cd /nope").2.1
      = (CommandHandler.execute osw ⟨"/tmp", 0⟩ "cd /nope").1.exitCode) ∧
    ((CommandHandler.execute osw ⟨"/tmp", 5⟩ "  ").1.exitCode = 0 ∧
     (CommandHandler.execute osw ⟨"/tmp", 5⟩ "  ").2.1 = ⟨"/tmp", 5⟩) :=
  ⟨(C8_last_exit_code osw ⟨"/tmp", 0⟩ "cd /nope").1 (by decide),
   (C8_last_exit_code osw ⟨"/tmp", 5⟩ "  ").2 (by decide)⟩

/-- C9 counterexample: a probe that completes with HTTP 304 — which is
not a 2xx status — still makes `is_available` return `true`, because
`raise_for_status` only raises for 400–599. -/
theorem C9_counterexample :
    OllamaHelper.is_available (ProbeOutcome.status 304) = true ∧ ¬(200 ≤ 304 ∧ 304 < 300) :=
  ⟨rfl, by omega⟩

/-- C9 (amended): `is_available` never raises — every exception outcome
yields `false` — and it returns `true` exactly when the probe completes
with a status code outside the 400–599 error range (so also for 1xx/3xx
responses, not only 2xx). -/
theorem C9_is_available :
    OllamaHelper.is_available ProbeOutcome.exn = false ∧
    ∀ code : Nat, OllamaHelper.is_available (ProbeOutcome.status code)
      = (decide (code < 400) || decide (600 ≤ code)) := by
  refine ⟨rfl, ?_⟩
  intro code
  show (if 400 ≤ code ∧ code < 600 then false else true)
    = (decide (code < 400) || decide (600 ≤ code))
  by_cases h : 400 ≤ code ∧ code < 600
  · rw [if_pos h]
    have h1 : ¬ code < 400 := by omega
    have h2 : ¬ 600 ≤ code := by omega
    simp [h1, h2]
  · rw [if_neg h]
    rcases Nat.lt_or_ge code 400 with hlt | hge
    · simp [hlt]
    · have h6 : 600 ≤ code := by omega
      simp [h6]

/-- C10: `execute` intercepts `cd` exactly when the raw input starts with
`"cd "` or strips to `"cd"`; every other input is not intercepted: the
working directory is unchanged, and when non-empty the line is forwarded
to the host shell as an ordinary command. -/
theorem C10_cd_interception (w : OSWorld) (st : HandlerState) (c : String) :
    (pyStartsWith c "cd " = true →
      (CommandHandler.execute w st c).2.2 = ExecBranch.cdPath) ∧
    (pyStrip c = "cd" →
      (CommandHandler.execute w st c).2.2 = ExecBranch.cdPath) ∧
    (pyStartsWith c "cd " = false → pyStrip c ≠ "cd" →
      (CommandHandler.execute w st c).2.1.cwd = st.cwd ∧
      (pyStrip c ≠ "" →
        (CommandHandler.execute w st c).2.2 = ExecBranch.shellPath)) := by
  refine ⟨?_, ?_, ?_⟩
  · intro h
    unfold CommandHandler.execute
    rw [if_neg (pyStrip_ne_empty_of_cd h), if_pos h]
  · intro h
    have hne : pyStrip c ≠ "" := by rw [h]; decide
    unfold CommandHandler.execute
    by_cases hsw : pyStartsWith c "cd " = true
    · rw [if_neg hne, if_pos hsw]
    · rw [if_neg hne, if_neg hsw, if_pos h]
  · intro hsw hcd
    by_cases hne : pyStrip c = ""
    · unfold CommandHandler.execute
      rw [if_pos hne]
      exact ⟨rfl, fun hc => absurd hne hc⟩
    · unfold CommandHandler.execute
      rw [if_neg hne, if_neg (by simp [hsw]), if_neg hcd]
      split
      · exact ⟨rfl, fun _ => rfl⟩
      · exact ⟨rfl, fun _ => rfl⟩

/-- Witness for C10: an interception via the `"cd "` literal, one via the
stripped form, and a first-token-`cd` input (`cd` + tab) that is
forwarded to the shell with the working directory unchanged. -/
theorem C10_cd_interception_witness :
    (CommandHandler.execute osw ⟨"/tmp", 0⟩ "cd /tmp").2.2 = ExecBranch.cdPath ∧
    (CommandHandler.execute osw ⟨"/tmp", 0⟩ " cd ").2.2 = ExecBranch.cdPath ∧
    ((CommandHandler.execute osw ⟨"/tmp", 0⟩ "cd\tfoo").2.1.cwd = "/tmp" ∧
     (CommandHandler.execute osw ⟨"/tmp", 0⟩ "cd\tfoo").2.2 = ExecBranch.shellPath) :=
  ⟨(C10_cd_interception osw ⟨"/tmp", 0⟩ "cd /tmp").1 (by decide),
   (C10_cd_interception osw ⟨"/tmp", 0⟩ " cd ").2.1 (by decide),
   ⟨((C10_cd_interception osw ⟨"/tmp", 0⟩ "cd\tfoo").2.2 (by decide) (by decide)).1,
    ((C10_cd_interception osw ⟨"/tmp", 0⟩ "cd\tfoo").2.2 (by decide) (by decide)).2
      (by decide)⟩⟩

end TermSage
